import Mathlib

/-!
Verification of the explicit-sweeper job-expansion logic.

The development embeds two Python implementations:
* `HydraSweeperExplicit` — `src/hydra_plugins/hydra_sweeper_explicit/_sweeper.py`
  (the plugin variant, with an optional seed axis);
* `HydraSweeperExplicit.Simple` — `src/hydra_sweeper_explicit/_sweeper.py`
  (the seedless variant).

Python scalar values are embedded as an inductive `Value`.  A Python `float`
is carried as its textual rendering (the string `str(value)` produces), since
the formatter only ever interpolates it into a string; the same holds for a
non-scalar object reaching the final `else` branch (`Value.vOther`).
Side effects of `sweep` (log calls, the single launcher invocation) are made
explicit in the returned `SweepOutcome` record.
-/

namespace HydraSweeperExplicit

/-- Embedding of the Python values a combination entry may hold.
`vFloat` and `vOther` carry the textual rendering Python's string
interpolation would produce for them. -/
inductive Value where
  | vBool : Bool → Value
  | vInt : Int → Value
  | vFloat : String → Value
  | vStr : String → Value
  | vNull : Value
  | vOther : String → Value
  deriving DecidableEq, Repr

/-- A combination: an insertion-ordered Python dict from parameter paths to
scalar values, embedded as an association list. -/
abbrev Combo := List (String × Value)

/-- The `seeds` field: either a single integer or an explicit list
(`None` is represented by `Option.none` at the use sites). -/
inductive SeedSpec where
  | count : Int → SeedSpec
  | explicitList : List Int → SeedSpec
  deriving DecidableEq, Repr

/-- The characters of the Python literal `" ,[]\x7b\x7d"` iterated by
`any(c in value for c in " ,[]\x7b\x7d")`. -/
def specialChars : List Char := [' ', ',', '[', ']', '\x7b', '\x7d']

/-- `any(c in value for c in " ,[]\x7b\x7d")` from `_format_override`:
does the string contain one of the special characters? -/
def needsQuote (s : String) : Bool :=
  specialChars.any (fun c => s.data.contains c)

/-- `ExplicitSweeper._format_override` (plugin variant): format one
`key=value` override token.  The `isinstance` chain of the source becomes a
match on the `Value` constructors; `str(value).lower()` for a `bool` is the
literal `true`/`false`. -/
def format_override (key : String) (value : Value) : String :=
  match value with
  | Value.vBool b => key ++ "=" ++ (if b then "true" else "false")
  | Value.vStr s =>
      if needsQuote s then key ++ "=" ++ "\"" ++ s ++ "\""
      else key ++ "=" ++ s
  | Value.vNull => key ++ "=null"
  | Value.vInt n => key ++ "=" ++ toString n
  | Value.vFloat r => key ++ "=" ++ r
  | Value.vOther r => key ++ "=" ++ r

/-- Python `list(range(n))`: empty for non-positive `n`. -/
def pyRange (n : Int) : List Int :=
  (List.range n.toNat).map Int.ofNat

/-- `ExplicitSweeper._resolve_seeds`: `None` stays absent, an integer `n`
becomes `list(range(n))`, an explicit list is returned as-is. -/
def resolve_seeds (seeds : Option SeedSpec) : Option (List Int) :=
  match seeds with
  | none => none
  | some (SeedSpec.count n) => some (pyRange n)
  | some (SeedSpec.explicitList xs) => some xs

/-- The sweeper's configuration state: the fields of `ExplicitSweeper`
relevant to job building (`combinations`, `seeds`, `seed_key`). -/
structure SweeperState where
  combinations : List Combo
  seeds : Option SeedSpec
  seed_key : String
  deriving DecidableEq, Repr

/-- The `hydra.sweeper` node of the external configuration as read during
`setup`: each field is `none` when the attribute is missing or `None`. -/
structure SweeperCfg where
  combinations : Option (List Combo)
  seeds : Option SeedSpec
  seed_key : Option String
  deriving DecidableEq, Repr

/-- `ExplicitSweeper.setup` (plugin variant), restricted to the three
configuration fields: combinations are loaded from the config only when the
constructor supplied none and the config list is truthy (non-empty); seeds
are loaded only when the constructor field is `None`; `seed_key` is taken
from the config whenever the config supplies a truthy (non-empty) string. -/
def setup (self : SweeperState) (cfg : SweeperCfg) : SweeperState :=
  let combinations :=
    if self.combinations = [] then
      match cfg.combinations with
      | some cs => if cs = [] then self.combinations else cs
      | none => self.combinations
    else self.combinations
  let seeds :=
    match self.seeds with
    | some s => some s
    | none => cfg.seeds
  let seed_key :=
    match cfg.seed_key with
    | some k => if k = "" then self.seed_key else k
    | none => self.seed_key
  ⟨combinations, seeds, seed_key⟩

/-- The override tokens of one combination, in the dict's own key order
(the comprehension `[self._format_override(k, v) for k, v in combo.items()]`). -/
def comboTokens (combo : Combo) : List String :=
  combo.map (fun kv => format_override kv.1 kv.2)

/-- The body of the `for combo in self.combinations` loop of
`ExplicitSweeper.sweep` (plugin variant): `job_overrides` is the list built
so far; for each combination, one job per resolved seed (combination
tokens, the seed token, then the trailing arguments), or a single job when
seeds are absent. -/
def buildLoop (seeds : Option (List Int)) (seed_key : String)
    (arguments : List String) (combos : List Combo)
    (job_overrides : List (List String)) : List (List String) :=
  match combos with
  | [] => job_overrides
  | combo :: rest =>
      match seeds with
      | some ss =>
          buildLoop seeds seed_key arguments rest
            (ss.foldl
              (fun acc seed =>
                acc ++ [comboTokens combo
                          ++ [format_override seed_key (Value.vInt seed)]
                          ++ arguments])
              job_overrides)
      | none =>
          buildLoop seeds seed_key arguments rest
            (job_overrides ++ [comboTokens combo ++ arguments])

/-- The job-building part of `ExplicitSweeper.sweep` (plugin variant):
resolve the seeds once, then run the loop starting from the empty list. -/
def build_jobs (self : SweeperState) (arguments : List String) :
    List (List String) :=
  buildLoop (resolve_seeds self.seeds) self.seed_key arguments
    self.combinations []

/-- Log events emitted by `sweep`, by level and call site. -/
inductive LogEvent where
  | warnNoCombinations
  | infoSummarySeeds (nCombos nSeeds nJobs : Nat)
  | infoSummaryNoSeeds (nJobs : Nat)
  | infoJob (idx : Nat) (line : String)
  deriving DecidableEq, Repr

/-- The observable outcome of one `sweep` call: the (unmodified) sweeper
state, the value returned to the caller, every `launcher.launch` invocation
with its arguments, and the log events. -/
structure SweepOutcome (α : Type) where
  state : SweeperState
  result : List α
  launcherCalls : List (List (List String) × Nat)
  logs : List LogEvent
  deriving DecidableEq, Repr

/-- `ExplicitSweeper.sweep` (plugin variant).  The launcher collaborator is
passed as a function; its single invocation is recorded in
`launcherCalls`. -/
def sweep {α : Type} (self : SweeperState)
    (launcher : List (List String) → Nat → List α)
    (arguments : List String) : SweepOutcome α :=
  if self.combinations = [] then
    ⟨self, [], [], [LogEvent.warnNoCombinations]⟩
  else
    let seeds := resolve_seeds self.seeds
    let job_overrides := build_jobs self arguments
    let summary :=
      match seeds with
      | some ss =>
          LogEvent.infoSummarySeeds self.combinations.length ss.length
            job_overrides.length
      | none => LogEvent.infoSummaryNoSeeds job_overrides.length
    let jobLogs := job_overrides.enum.map
      (fun p => LogEvent.infoJob p.1 (String.intercalate " " p.2))
    let returns := launcher job_overrides 0
    ⟨self, returns, [(job_overrides, 0)], summary :: jobLogs⟩

namespace Simple

/-- `ExplicitSweeper._format_override` of the seedless variant
(`src/hydra_sweeper_explicit/_sweeper.py`); the source body is identical to
the plugin variant's. -/
def format_override (key : String) (value : Value) : String :=
  match value with
  | Value.vBool b => key ++ "=" ++ (if b then "true" else "false")
  | Value.vStr s =>
      if needsQuote s then key ++ "=" ++ "\"" ++ s ++ "\""
      else key ++ "=" ++ s
  | Value.vNull => key ++ "=null"
  | Value.vInt n => key ++ "=" ++ toString n
  | Value.vFloat r => key ++ "=" ++ r
  | Value.vOther r => key ++ "=" ++ r

/-- The job-building loop of the seedless variant's `sweep`: one job per
combination, its formatted tokens followed by the trailing arguments. -/
def build_jobs (combinations : List Combo) (arguments : List String) :
    List (List String) :=
  combinations.foldl
    (fun job_overrides combo =>
      job_overrides
        ++ [combo.map (fun kv => format_override kv.1 kv.2) ++ arguments])
    []

end Simple

/-! ### Helper lemmas -/

/-- A left fold that appends one element per input equals an append of the
mapped list. -/
theorem foldl_append_map {β γ : Type} (xs : List β) (g : β → γ)
    (acc : List γ) :
    xs.foldl (fun a x => a ++ [g x]) acc = acc ++ xs.map g := by
  induction xs generalizing acc with
  | nil => simp
  | cons x xs ih => simp [List.foldl_cons, ih]

/-- The job-building loop with an arbitrary accumulator, as a `flatMap`. -/
theorem buildLoop_eq (seeds : Option (List Int)) (sk : String)
    (args : List String) (combos : List Combo)
    (acc : List (List String)) :
    buildLoop seeds sk args combos acc
    = acc ++ combos.flatMap
        (fun combo =>
          match seeds with
          | some ss =>
              ss.map (fun seed =>
                comboTokens combo
                  ++ [format_override sk (Value.vInt seed)] ++ args)
          | none => [comboTokens combo ++ args]) := by
  induction combos generalizing acc with
  | nil => simp [buildLoop]
  | cons c cs ih =>
    cases seeds with
    | none => simp [buildLoop, ih]
    | some ss => simp [buildLoop, foldl_append_map, ih]

/-- `build_jobs` in closed form: a combination-major, seed-minor
`flatMap`. -/
theorem build_jobs_eq (self : SweeperState) (arguments : List String) :
    build_jobs self arguments
    = self.combinations.flatMap
        (fun combo =>
          match resolve_seeds self.seeds with
          | some ss =>
              ss.map (fun seed =>
                comboTokens combo
                  ++ [format_override self.seed_key (Value.vInt seed)]
                  ++ arguments)
          | none => [comboTokens combo ++ arguments]) := by
  unfold build_jobs
  exact buildLoop_eq (resolve_seeds self.seeds) self.seed_key arguments
    self.combinations []

/-- The length of a `flatMap` whose pieces have a common length. -/
theorem length_flatMap_const {β γ : Type} (xs : List β) (f : β → List γ)
    (k : Nat) (h : ∀ x, (f x).length = k) :
    (xs.flatMap f).length = xs.length * k := by
  induction xs with
  | nil => simp
  | cons x xs ih => simp [h, ih, Nat.succ_mul, Nat.add_comm]

/-- A `flatMap` producing singletons is a `map`. -/
theorem flatMap_singleton_eq_map {β γ : Type} (xs : List β) (g : β → γ) :
    xs.flatMap (fun x => [g x]) = xs.map g := by
  induction xs with
  | nil => rfl
  | cons x xs ih => simp [ih]

/-- The two `_format_override` bodies are the same function. -/
theorem simple_format_override_eq (k : String) (v : Value) :
    Simple.format_override k v = format_override k v := rfl

/-- The seedless variant's job-building loop in closed form. -/
theorem simple_build_jobs_eq (combos : List Combo) (args : List String) :
    Simple.build_jobs combos args
      = combos.map (fun combo =>
          combo.map (fun kv => Simple.format_override kv.1 kv.2) ++ args) := by
  unfold Simple.build_jobs
  rw [foldl_append_map combos
    (fun combo =>
      combo.map (fun kv => Simple.format_override kv.1 kv.2) ++ args) []]
  simp

/-! ### Claims -/

/-- C1: for a combination list of length `C`, `sweep` builds `C × S` jobs
when the configured seeds resolve to a list of length `S` (in particular
zero jobs for `seeds = 0`, without error), and `C` jobs when no seeds are
configured. -/
theorem sweep_job_count (self : SweeperState) (arguments : List String) :
    (build_jobs self arguments).length =
      match resolve_seeds self.seeds with
      | some ss => self.combinations.length * ss.length
      | none => self.combinations.length := by
  rw [build_jobs_eq]
  cases h : resolve_seeds self.seeds with
  | none =>
    exact (length_flatMap_const self.combinations
      (fun combo => [comboTokens combo ++ arguments]) 1
      (fun _ => rfl)).trans (Nat.mul_one _)
  | some ss =>
    exact length_flatMap_const self.combinations
      (fun combo => ss.map (fun seed =>
        comboTokens combo
          ++ [format_override self.seed_key (Value.vInt seed)] ++ arguments))
      ss.length (fun combo => List.length_map _ _)

/-- C2: the built job list is the combination-major, seed-minor `flatMap`;
within each job the tokens are the combination's formatted key/value pairs
in the combination's own key order, then the formatted seed token when
seeds are configured, then the trailing arguments verbatim. -/
theorem build_jobs_order (self : SweeperState) (arguments : List String) :
    build_jobs self arguments
    = self.combinations.flatMap
        (fun combo =>
          match resolve_seeds self.seeds with
          | some ss =>
              ss.map (fun seed =>
                combo.map (fun kv => format_override kv.1 kv.2)
                  ++ [format_override self.seed_key (Value.vInt seed)]
                  ++ arguments)
          | none =>
              [combo.map (fun kv => format_override kv.1 kv.2)
                ++ arguments]) :=
  build_jobs_eq self arguments

/-- C6: `resolve_seeds` is absent for an absent seed specification; a
non-negative integer `n` resolves to the sequence `0, 1, ..., n-1` (empty
for `n = 0`); an explicit list resolves to itself, order and duplicates
preserved. -/
theorem resolve_seeds_spec :
    resolve_seeds none = none
    ∧ (∀ n : Int, 0 ≤ n →
        ∃ ss, resolve_seeds (some (SeedSpec.count n)) = some ss
          ∧ ss.length = n.toNat
          ∧ ∀ i : Nat, ∀ hi : i < ss.length, ss.get ⟨i, hi⟩ = (i : Int))
    ∧ resolve_seeds (some (SeedSpec.count 0)) = some []
    ∧ (∀ xs, resolve_seeds (some (SeedSpec.explicitList xs)) = some xs) := by
  refine ⟨rfl, ?_, rfl, fun xs => rfl⟩
  intro n hn
  refine ⟨pyRange n, rfl, by simp [pyRange], ?_⟩
  intro i hi
  simp [pyRange, List.get_eq_getElem]

/-- Witness for C6 at `n = 3`. -/
theorem resolve_seeds_spec_witness :
    (0 : Int) ≤ 3
    ∧ ∃ ss, resolve_seeds (some (SeedSpec.count 3)) = some ss
        ∧ ss.length = (3 : Int).toNat
        ∧ ∀ i : Nat, ∀ hi : i < ss.length, ss.get ⟨i, hi⟩ = (i : Int) :=
  ⟨by decide, resolve_seeds_spec.2.1 3 (by decide)⟩

/-- C7: with an empty combination list, `sweep` returns the empty result,
emits the warning-level notice, and performs no launcher call, whatever
the configured seeds and trailing arguments are. -/
theorem sweep_empty_combinations {α : Type} (self : SweeperState)
    (launcher : List (List String) → Nat → List α) (arguments : List String)
    (h : self.combinations = []) :
    sweep self launcher arguments
      = ⟨self, [], [], [LogEvent.warnNoCombinations]⟩ := by
  unfold sweep
  rw [if_pos h]

/-- Witness for C7 on a concrete empty-combination state. -/
theorem sweep_empty_combinations_witness :
    (⟨[], some (SeedSpec.count 5), "seed"⟩ : SweeperState).combinations = []
    ∧ sweep (⟨[], some (SeedSpec.count 5), "seed"⟩ : SweeperState)
        (fun _ _ => ([7] : List Nat)) ["extra=1"]
      = ⟨⟨[], some (SeedSpec.count 5), "seed"⟩, [], [],
          [LogEvent.warnNoCombinations]⟩ :=
  ⟨rfl, sweep_empty_combinations _ _ _ rfl⟩

/-- C9: `sweep` leaves the configuration state (combinations, seeds,
seed_key) unchanged. -/
theorem sweep_preserves_state {α : Type} (self : SweeperState)
    (launcher : List (List String) → Nat → List α)
    (arguments : List String) :
    (sweep self launcher arguments).state = self := by
  unfold sweep
  split <;> rfl

/-- C3: `format_override` produces `key=value` with booleans rendered as
lowercase `true`/`false`, null as the literal `null`, strings quoted
exactly when they contain one of space, comma, `[`, `]`, `\x7b`, `\x7d`,
and integers and floats as their default textual representation. -/
theorem format_override_spec (key : String) :
    format_override key (Value.vBool true) = key ++ "=" ++ "true"
    ∧ format_override key (Value.vBool false) = key ++ "=" ++ "false"
    ∧ format_override key Value.vNull = key ++ "=null"
    ∧ (∀ s, needsQuote s = true →
        format_override key (Value.vStr s)
          = key ++ "=" ++ "\"" ++ s ++ "\"")
    ∧ (∀ s, needsQuote s = false →
        format_override key (Value.vStr s) = key ++ "=" ++ s)
    ∧ (∀ n : Int,
        format_override key (Value.vInt n) = key ++ "=" ++ toString n)
    ∧ (∀ r : String,
        format_override key (Value.vFloat r) = key ++ "=" ++ r) := by
  refine ⟨rfl, rfl, rfl, ?_, ?_, fun n => rfl, fun r => rfl⟩
  · intro s hs
    simp [format_override, hs]
  · intro s hs
    simp [format_override, hs]

/-- Witness for C3 at the quoted and unquoted string cases. -/
theorem format_override_spec_witness :
    (needsQuote "foo bar" = true
      ∧ format_override "a" (Value.vStr "foo bar")
          = "a" ++ "=" ++ "\"" ++ "foo bar" ++ "\"")
    ∧ (needsQuote "value" = false
      ∧ format_override "nested.key" (Value.vStr "value")
          = "nested.key" ++ "=" ++ "value") :=
  ⟨⟨by decide, (format_override_spec "a").2.2.2.1 "foo bar" (by decide)⟩,
   ⟨by decide,
    (format_override_spec "nested.key").2.2.2.2.1 "value" (by decide)⟩⟩

/-- C5 counterexample: on a value of an unrecognized kind (here a Python
list, whose rendering is `[1, 2]`), `_format_override` does not signal any
error: the final `else` branch formats it like any other value. -/
theorem format_override_no_error_counterexample :
    format_override "a" (Value.vOther "[1, 2]") = "a" ++ "=" ++ "[1, 2]" :=
  rfl

/-- C5 (amended): `_format_override` is pure and total on every input and
always returns a `key=...` token; it contains no failure path and no
`InvalidParameterError` is ever signalled. -/
theorem format_override_total (key : String) (value : Value) :
    ∃ rest : String, format_override key value = key ++ "=" ++ rest := by
  cases value with
  | vBool b => cases b <;> exact ⟨_, rfl⟩
  | vStr s =>
      cases hq : needsQuote s with
      | true =>
          refine ⟨"\"" ++ s ++ "\"", ?_⟩
          simp only [format_override, hq, if_true]
          apply String.ext
          simp [String.data_append]
      | false =>
          refine ⟨s, ?_⟩
          simp [format_override, hq]
  | vNull =>
      refine ⟨"null", ?_⟩
      show key ++ "=null" = key ++ "=" ++ "null"
      apply String.ext
      simp [String.data_append]
  | vInt n => exact ⟨toString n, rfl⟩
  | vFloat r => exact ⟨r, rfl⟩
  | vOther r => exact ⟨r, rfl⟩

/-- C4 counterexample: a `seed_key` supplied at construction (`"myseed"`,
not the default) is overwritten by a non-empty configuration value during
`setup`, while combinations and seeds keep their construction values. -/
theorem setup_precedence_counterexample :
    (setup
        (⟨[[("a", Value.vInt 1)]], some (SeedSpec.count 2), "myseed"⟩ :
          SweeperState)
        (⟨some [[("b", Value.vInt 2)]], some (SeedSpec.explicitList [9]),
          some "cfgseed"⟩ : SweeperCfg)).seed_key = "cfgseed"
    ∧ "cfgseed" ≠ "myseed" := by
  constructor
  · rfl
  · decide

/-- C4 (amended): during `setup`, construction-time values win over
configuration for `combinations` (kept when non-empty) and `seeds` (kept
when not `None`); `seed_key`, however, is taken from the configuration
whenever the configuration supplies a non-empty string, regardless of the
construction-time value, and only otherwise is the construction value
kept. -/
theorem setup_precedence (self : SweeperState) (cfg : SweeperCfg) :
    (self.combinations ≠ [] →
      (setup self cfg).combinations = self.combinations)
    ∧ (self.combinations = [] →
        (setup self cfg).combinations =
          match cfg.combinations with
          | some cs => if cs = [] then [] else cs
          | none => [])
    ∧ (∀ s, self.seeds = some s → (setup self cfg).seeds = some s)
    ∧ (self.seeds = none → (setup self cfg).seeds = cfg.seeds)
    ∧ (∀ k, cfg.seed_key = some k → k ≠ "" →
        (setup self cfg).seed_key = k)
    ∧ (cfg.seed_key = none → (setup self cfg).seed_key = self.seed_key)
    ∧ (cfg.seed_key = some "" →
        (setup self cfg).seed_key = self.seed_key) := by
  refine ⟨?_, ?_, ?_, ?_, ?_, ?_, ?_⟩
  · intro h
    simp [setup, h]
  · intro h
    cases hc : cfg.combinations with
    | none => simp [setup, h, hc]
    | some cs => by_cases hcs : cs = [] <;> simp [setup, h, hc, hcs]
  · intro s hs
    simp [setup, hs]
  · intro hs
    simp [setup, hs]
  · intro k hk hne
    simp [setup, hk, hne]
  · intro hk
    simp [setup, hk]
  · intro hk
    simp [setup, hk]

/-- Witness for C4 (amended) on concrete construction and configuration
values. -/
theorem setup_precedence_witness :
    ((⟨[[("a", Value.vInt 1)]], some (SeedSpec.count 2), "myseed"⟩ :
        SweeperState).combinations ≠ []
      ∧ (setup
          (⟨[[("a", Value.vInt 1)]], some (SeedSpec.count 2), "myseed"⟩ :
            SweeperState)
          (⟨some [[("b", Value.vInt 2)]],
            some (SeedSpec.explicitList [9]), some "cfgseed"⟩ :
            SweeperCfg)).combinations = [[("a", Value.vInt 1)]])
    ∧ ((⟨some [[("b", Value.vInt 2)]], some (SeedSpec.explicitList [9]),
          some "cfgseed"⟩ : SweeperCfg).seed_key = some "cfgseed"
      ∧ "cfgseed" ≠ ""
      ∧ (setup
          (⟨[[("a", Value.vInt 1)]], some (SeedSpec.count 2), "myseed"⟩ :
            SweeperState)
          (⟨some [[("b", Value.vInt 2)]],
            some (SeedSpec.explicitList [9]), some "cfgseed"⟩ :
            SweeperCfg)).seed_key = "cfgseed") :=
  ⟨⟨by decide,
    (setup_precedence
      (⟨[[("a", Value.vInt 1)]], some (SeedSpec.count 2), "myseed"⟩ :
        SweeperState)
      (⟨some [[("b", Value.vInt 2)]], some (SeedSpec.explicitList [9]),
        some "cfgseed"⟩ : SweeperCfg)).1 (by decide)⟩,
   ⟨rfl, by decide,
    (setup_precedence
      (⟨[[("a", Value.vInt 1)]], some (SeedSpec.count 2), "myseed"⟩ :
        SweeperState)
      (⟨some [[("b", Value.vInt 2)]], some (SeedSpec.explicitList [9]),
        some "cfgseed"⟩ : SweeperCfg)).2.2.2.2.1 "cfgseed" rfl
      (by decide)⟩⟩

/-- C8 counterexample: with an empty combination list, `sweep` never
invokes the launcher (zero calls, not one), and returns the empty list
rather than any launcher result. -/
theorem sweep_launches_once_counterexample :
    (sweep (⟨[], none, "seed"⟩ : SweeperState)
        (fun _ _ => ([42] : List Nat)) []).launcherCalls = []
    ∧ ¬ ((sweep (⟨[], none, "seed"⟩ : SweeperState)
        (fun _ _ => ([42] : List Nat)) []).launcherCalls.length = 1) := by
  constructor
  · rfl
  · decide

/-- C8 (amended): whenever the combination list is non-empty, `sweep`
invokes the launcher exactly once, with the full ordered job list and a
starting job index of `0`, and returns the launcher's result unchanged. -/
theorem sweep_launches_once {α : Type} (self : SweeperState)
    (launcher : List (List String) → Nat → List α) (arguments : List String)
    (h : self.combinations ≠ []) :
    (sweep self launcher arguments).launcherCalls
        = [(build_jobs self arguments, 0)]
    ∧ (sweep self launcher arguments).result
        = launcher (build_jobs self arguments) 0 := by
  unfold sweep
  rw [if_neg h]
  exact ⟨rfl, rfl⟩

/-- Witness for C8 (amended) on a one-combination state. -/
theorem sweep_launches_once_witness :
    (⟨[[("a", Value.vInt 1)]], none, "seed"⟩ :
        SweeperState).combinations ≠ []
    ∧ ((sweep (⟨[[("a", Value.vInt 1)]], none, "seed"⟩ : SweeperState)
          (fun js i => ([js.length + i] : List Nat)) []).launcherCalls
        = [(build_jobs
            (⟨[[("a", Value.vInt 1)]], none, "seed"⟩ : SweeperState) [],
            0)]
      ∧ (sweep (⟨[[("a", Value.vInt 1)]], none, "seed"⟩ : SweeperState)
          (fun js i => ([js.length + i] : List Nat)) []).result
        = (fun js i => ([js.length + i] : List Nat))
            (build_jobs
              (⟨[[("a", Value.vInt 1)]], none, "seed"⟩ : SweeperState) [])
            0) :=
  ⟨by decide,
   sweep_launches_once
     (⟨[[("a", Value.vInt 1)]], none, "seed"⟩ : SweeperState)
     (fun js i => ([js.length + i] : List Nat)) [] (by decide)⟩

/-- C10: the seedless implementation and the plugin implementation agree
when no seeds are configured: their `_format_override` functions coincide
on every input, and their job-building loops produce identical job lists
for every combination list and trailing-argument list. -/
theorem seedless_refinement :
    (∀ (k : String) (v : Value),
      Simple.format_override k v = format_override k v)
    ∧ (∀ (combos : List Combo) (sk : String) (args : List String),
        Simple.build_jobs combos args
          = build_jobs (⟨combos, none, sk⟩ : SweeperState) args) := by
  constructor
  · intro k v
    exact simple_format_override_eq k v
  · intro combos sk args
    rw [simple_build_jobs_eq, build_jobs_eq]
    show combos.map _ = combos.flatMap
      (fun combo => [comboTokens combo ++ args])
    rw [flatMap_singleton_eq_map combos (fun combo => comboTokens combo ++ args)]
    simp [comboTokens, simple_format_override_eq]

end HydraSweeperExplicit
